import Mathlib

/-!
Shallow embedding of `go-hutool`'s `async` package (`src/async/async.go`).

The package implements a bounded-concurrency task executor:

* `Task` is `func(ctx) (interface\x7b\x7d, error)`; we abstract a task by the
  `Outcome` its body produces when invoked (a normal `(value, error)` return,
  or a runtime panic with a payload), plus a record of *which* context object
  is handed to the body at invocation time (`CtxId`).
* `executeWithRecover` is the panic guard: it is embedded as a pure function
  from the body's `Outcome` to the `Result` that the Go function returns
  (the named return `result` keeps its zero `Value` when a panic is recovered
  and only `result.Err` is set).
* The stateful, concurrent part (`Execute`, `ExecuteWithTimeout`, `Wait`,
  `ExecuteAll`, `ExecuteAllWithTimeout`, `Shutdown`) is embedded as a
  small-step transition relation `Step` on a state `St` that carries the
  executor's fields (`workerPool` occupancy, `results` channel status,
  `sync.WaitGroup` counter, cancellable context) together with the program
  counters of the goroutines spawned by `Execute` (`ETh`) and by
  `ExecuteWithTimeout` (`WTh`).  `SStep` additionally allows new submissions
  at any time (open system).  Channel semantics: `workerPool` is a buffered
  channel of capacity `cap` (a counting semaphore), `results` is unbuffered
  (a send is a rendezvous with a receiver and a send on a closed channel is
  an unrecovered runtime fault), and `ExecuteWithTimeout`'s private
  `resultChan` has buffer 1 (its single send never blocks).
-/

namespace GoHutool

/-- Task result values (Go `interface` values; strings suffice for the model). -/
abbrev GoVal := String

/-- The errors the async package can place in a `Result`, with the exact
format strings used by the Go source. -/
inductive GoError where
  | taskErr (msg : String)
  | panicErr (payload : String)
  | canceled
  | timeoutAfter (ms : Nat)
  | shutdownTimeoutAfter (ms : Nat)
deriving DecidableEq

/-- Rendered error text, mirroring `fmt.Errorf` formats in `async.go`
(durations are rendered in milliseconds). -/
def GoError.text : GoError → String
  | .taskErr m => m
  | .panicErr p => "发生 panic：" ++ p
  | .canceled => "context canceled"
  | .timeoutAfter d => "任务在 " ++ toString d ++ "ms 后超时"
  | .shutdownTimeoutAfter d => "关闭在 " ++ toString d ++ "ms 后超时"

/-- `Result` from `async.go`: `Value interface; Err error`. -/
structure Result where
  Value : Option GoVal
  Err : Option GoError
deriving DecidableEq

/-- What a task body does when it is invoked: return a `(value, error)` pair,
or panic with a payload (rendered by `%v` as a string). -/
inductive Outcome where
  | ret (v : Option GoVal) (e : Option String)
  | panics (payload : String)
deriving DecidableEq

/-- `executeWithRecover` from `async.go`: runs the task and recovers from a
panic.  On a normal return it yields `Result\x7bValue: value, Err: err\x7d`; on a
panic the deferred recover sets `result.Err = fmt.Errorf("发生 panic：%v", r)`
while the named return's `Value` keeps its zero value `nil`. -/
def executeWithRecover : Outcome → Result
  | .ret v e => { Value := v, Err := e.map GoError.taskErr }
  | .panics p => { Value := none, Err := some (GoError.panicErr p) }

/-- The `Result` published by `Execute`'s cancellation branch:
`Result\x7bErr: e.ctx.Err()\x7d` where `e.ctx.Err() = context.Canceled`. -/
def canceledResult : Result := { Value := none, Err := some GoError.canceled }

/-- The `Result` returned by `ExecuteWithTimeout`'s timeout branch:
`Result\x7bErr: fmt.Errorf("任务在 %v 后超时", timeout)\x7d`. -/
def timeoutResult (d : Nat) : Result := { Value := none, Err := some (GoError.timeoutAfter d) }

/-- Static channel configuration of a constructed executor:
`workerPool` capacity and `results` buffer size. -/
structure AsyncExecutor where
  workerPoolCap : Nat
  resultsCap : Nat
deriving DecidableEq

/-- Go's `make(chan struct, size)`: a negative size is a runtime panic
(`makechan: size out of range`), modelled as `Except.error`. -/
def makeChan (size : Int) : Except String Nat :=
  if size < 0 then .error "makechan: size out of range" else .ok size.toNat

/-- `NewAsyncExecutor(workers)` from `async.go`: allocates
`workerPool = make(chan struct, workers)` and the unbuffered `results`
channel.  There is no validation of `workers` anywhere in the function. -/
def NewAsyncExecutor (workers : Int) : Except String AsyncExecutor :=
  (makeChan workers).map (fun c => { workerPoolCap := c, resultsCap := 0 })

/-- Identity of a context object that can be handed to a task body:
the executor's root context `e.ctx`, or the `context.WithTimeout`-derived
scope created by `ExecuteWithTimeout`. -/
inductive CtxId where
  | root
  | timeoutScoped
deriving DecidableEq

/-- Program counter of a goroutine spawned by `Execute`:

* `waiting` — at the `select`, blocked on `e.workerPool <- struct` vs
  `<-e.ctx.Done()`;
* `running` — slot acquired, the task body is executing inside
  `executeWithRecover`;
* `sendSlot r` — body finished with result `r`, at `e.results <- result`
  (the slot is still held: its release is deferred);
* `exiting r` — the send rendezvoused with a receiver; the deferred slot
  release and `wg.Done()` have not run yet;
* `sendCancel` — the `ctx.Done()` branch was taken (body never invoked),
  at `e.results <- Result\x7bErr: e.ctx.Err()\x7d`;
* `exitingNC` — the cancellation send rendezvoused; `wg.Done()` pending;
* `doneS r` / `doneC` — goroutine finished via the slot / cancellation path;
* `faulted` — the send hit a closed `results` channel: an unrecovered
  runtime panic (the deferred releases run during unwinding, then the
  process crashes). -/
inductive EPc where
  | waiting
  | running
  | sendSlot (r : Result)
  | exiting (r : Result)
  | sendCancel
  | exitingNC
  | doneS (r : Result)
  | doneC
  | faulted
deriving DecidableEq

/-- A goroutine spawned by `Execute`: the submitted task (abstracted by its
outcome), its program counter, and whether the body was ever invoked. -/
structure ETh where
  task : Outcome
  pc : EPc
  invoked : Bool
deriving DecidableEq

/-- Body state of the goroutine spawned by `ExecuteWithTimeout`:
not yet scheduled / executing the task body / result sent to the private
buffered `resultChan`. -/
inductive WPc where
  | idle
  | running
  | sent
deriving DecidableEq

/-- The caller side of `ExecuteWithTimeout`: at the `select` racing
`<-resultChan` against `<-ctx.Done()`, or returned with one of the two. -/
inductive WaiterPc where
  | selecting
  | retRes (r : Result)
  | retTimeout (r : Result)
deriving DecidableEq

/-- One `ExecuteWithTimeout(task, d)` call in flight: the task, the duration,
the context object passed to the body at invocation (`none` until invoked),
the body's state, the buffered `resultChan` content, whether the derived
timeout scope has expired, and the caller's state. -/
structure WTh where
  task : Outcome
  dur : Nat
  ctxArg : Option CtxId
  wpc : WPc
  buf : Option Result
  timer : Bool
  waiter : WaiterPc
deriving DecidableEq

/-- Global state of one `AsyncExecutor` together with all goroutines spawned
through it.  `pool` is the number of tokens in `workerPool`, `wg` the
`sync.WaitGroup` counter, `cancelled` whether `e.ctx` is cancelled,
`waitCalled` whether `Wait()` has spawned the closer goroutine, `closed`
whether `e.results` is closed, `crashed` whether an unrecovered panic has
occurred, and `collected` everything received from `e.results` so far. -/
structure St where
  cap : Nat
  pool : Nat
  wg : Nat
  cancelled : Bool
  waitCalled : Bool
  closed : Bool
  crashed : Bool
  eths : List ETh
  wths : List WTh
  collected : List Result
deriving DecidableEq

/-- A freshly constructed executor with capacity `c` and no submissions. -/
def St.init (c : Nat) : St :=
  { cap := c, pool := 0, wg := 0, cancelled := false, waitCalled := false,
    closed := false, crashed := false, eths := [], wths := [], collected := [] }

/-- `ExecuteAll(tasks...)` just after its submission loop: one `Execute`
goroutine per task (each `Execute` did `wg.Add(1)`), `Wait()` called (closer
goroutine spawned), drain loop about to run. -/
def executeAllStart (c : Nat) (outs : List Outcome) : St :=
  { St.init c with
    eths := outs.map (fun o => { task := o, pc := .waiting, invoked := false }),
    wg := outs.length,
    waitCalled := true }

/-- `ExecuteAllWithTimeout(d, tasks...)` just after its submission loop: same
as `executeAllStart` except that `Wait()` is never called, so no closer
goroutine exists. -/
def executeAllWithTimeoutStart (c : Nat) (outs : List Outcome) : St :=
  { St.init c with
    eths := outs.map (fun o => { task := o, pc := .waiting, invoked := false }),
    wg := outs.length }

/-- The effect of `Shutdown` on the executor state: `e.cancel()` cancels the
root context.  (`Shutdown` then waits, bounded by its deadline, for `wg` to
drain; with either return value the context stays cancelled.) -/
def shutdownSignal (s : St) : St := { s with cancelled := true }

/-- Does this program point hold a `workerPool` token?  The token is acquired
entering `running` and released by the deferred receive, which runs after the
result send (or during panic unwinding). -/
def EPc.slotHeld : EPc → Bool
  | .running | .sendSlot _ | .exiting _ => true
  | _ => false

/-- Does this goroutine still count in `e.wg`?  `wg.Done()` is deferred and
runs last (also during panic unwinding). -/
def EPc.activeWg : EPc → Bool
  | .doneS _ | .doneC | .faulted => false
  | _ => true

/-- How many `Result`s this goroutine has published to `e.results` so far
(0 before its send rendezvouses, 1 after). -/
def EPc.pubCount : EPc → Nat
  | .exiting _ | .exitingNC | .doneS _ | .doneC => 1
  | _ => 0

/-- Is the task body actively executing at this program point? -/
def EPc.bodyRunning : EPc → Bool
  | .running => true
  | _ => false

/-- Has this goroutine finished normally (either path)? -/
def EPc.isDone : EPc → Bool
  | .doneS _ | .doneC => true
  | _ => false

/-- Is the `ExecuteWithTimeout` body actively executing? -/
def WPc.isRunning : WPc → Bool
  | .running => true
  | _ => false

/-- Number of `Execute` goroutines currently holding a `workerPool` token. -/
def countSlot (l : List ETh) : Nat := (l.filter (fun t => t.pc.slotHeld)).length

/-- Number of `Execute` goroutines still counted in `e.wg`. -/
def countActive (l : List ETh) : Nat := (l.filter (fun t => t.pc.activeWg)).length

/-- Number of `Execute` goroutines whose task body is actively executing. -/
def countBodies (l : List ETh) : Nat := (l.filter (fun t => t.pc.bodyRunning)).length

/-- Total number of `Result`s published to `e.results` by `Execute` goroutines. -/
def sumPub (l : List ETh) : Nat := (l.map (fun t => t.pc.pubCount)).sum

/-- Number of `ExecuteWithTimeout` bodies actively executing. -/
def wBodies (l : List WTh) : Nat := (l.filter (fun w => w.wpc.isRunning)).length

/-- Total number of task bodies actively executing, over all submission paths. -/
def bodiesAll (s : St) : Nat := countBodies s.eths + wBodies s.wths

/-- Small-step transition relation for the executor and the goroutines already
spawned through it.  Each constructor mirrors one atomic action of
`async.go`; goroutines are addressed by a list decomposition
`l₁ ++ t :: l₂` of `s.eths` / `s.wths`. -/
inductive Step : St → St → Prop where
  /-- `Execute` goroutine wins `e.workerPool <- struct` at the `select`
  (buffered send: requires a free slot) and invokes the body via
  `executeWithRecover(task)`, which calls `task(e.ctx)`. -/
  | acquire (s : St) (l₁ l₂ : List ETh) (t : ETh)
      (h : s.eths = l₁ ++ t :: l₂) (hpc : t.pc = .waiting) (hcap : s.pool < s.cap) :
      Step s { s with eths := l₁ ++ { t with pc := .running, invoked := true } :: l₂,
                      pool := s.pool + 1 }
  /-- `Execute` goroutine takes the `<-e.ctx.Done()` branch (enabled only
  once the context is cancelled); the body is never invoked. -/
  | abandon (s : St) (l₁ l₂ : List ETh) (t : ETh)
      (h : s.eths = l₁ ++ t :: l₂) (hpc : t.pc = .waiting) (hc : s.cancelled = true) :
      Step s { s with eths := l₁ ++ { t with pc := .sendCancel } :: l₂ }
  /-- The task body returns (or panics, recovered by the guard): the goroutine
  now holds `result = executeWithRecover(task)` and is at `e.results <- result`. -/
  | finishBody (s : St) (l₁ l₂ : List ETh) (t : ETh)
      (h : s.eths = l₁ ++ t :: l₂) (hpc : t.pc = .running) :
      Step s { s with eths := l₁ ++ { t with pc := .sendSlot (executeWithRecover t.task) } :: l₂ }
  /-- The result send rendezvouses with a receiver of `e.results`
  (the channel is unbuffered and must be open). -/
  | recvSlot (s : St) (l₁ l₂ : List ETh) (t : ETh) (r : Result)
      (h : s.eths = l₁ ++ t :: l₂) (hpc : t.pc = .sendSlot r) (hcl : s.closed = false) :
      Step s { s with eths := l₁ ++ { t with pc := .exiting r } :: l₂,
                      collected := s.collected ++ [r] }
  /-- The cancellation-branch send `e.results <- Result\x7bErr: e.ctx.Err()\x7d`
  rendezvouses with a receiver. -/
  | recvCancel (s : St) (l₁ l₂ : List ETh) (t : ETh)
      (h : s.eths = l₁ ++ t :: l₂) (hpc : t.pc = .sendCancel) (hcl : s.closed = false) :
      Step s { s with eths := l₁ ++ { t with pc := .exitingNC } :: l₂,
                      collected := s.collected ++ [canceledResult] }
  /-- The deferred slot release `<-e.workerPool` and `e.wg.Done()` run; the
  `Execute` goroutine exits (slot path). -/
  | finishSlot (s : St) (l₁ l₂ : List ETh) (t : ETh) (r : Result)
      (h : s.eths = l₁ ++ t :: l₂) (hpc : t.pc = .exiting r) :
      Step s { s with eths := l₁ ++ { t with pc := .doneS r } :: l₂,
                      pool := s.pool - 1, wg := s.wg - 1 }
  /-- The deferred `e.wg.Done()` runs; the goroutine exits (cancellation path,
  no slot was held). -/
  | finishNC (s : St) (l₁ l₂ : List ETh) (t : ETh)
      (h : s.eths = l₁ ++ t :: l₂) (hpc : t.pc = .exitingNC) :
      Step s { s with eths := l₁ ++ { t with pc := .doneC } :: l₂, wg := s.wg - 1 }
  /-- The result send hits a closed `e.results`: an unrecovered runtime panic.
  The deferred slot release and `wg.Done()` run during unwinding, then the
  process crashes. -/
  | sendClosedSlot (s : St) (l₁ l₂ : List ETh) (t : ETh) (r : Result)
      (h : s.eths = l₁ ++ t :: l₂) (hpc : t.pc = .sendSlot r) (hcl : s.closed = true) :
      Step s { s with eths := l₁ ++ { t with pc := .faulted } :: l₂,
                      pool := s.pool - 1, wg := s.wg - 1, crashed := true }
  /-- The cancellation-branch send hits a closed `e.results`: unrecovered panic. -/
  | sendClosedCancel (s : St) (l₁ l₂ : List ETh) (t : ETh)
      (h : s.eths = l₁ ++ t :: l₂) (hpc : t.pc = .sendCancel) (hcl : s.closed = true) :
      Step s { s with eths := l₁ ++ { t with pc := .faulted } :: l₂,
                      wg := s.wg - 1, crashed := true }
  /-- `Wait()`'s closer goroutine: `e.wg.Wait()` returns (counter is zero) and
  it runs `close(e.results)`. -/
  | closeChan (s : St)
      (hw : s.waitCalled = true) (hwg : s.wg = 0) (hcl : s.closed = false) :
      Step s { s with closed := true }
  /-- The root context is cancelled (`Shutdown`'s `e.cancel()` or the parent
  context supplied via `WithContext`); cancellation is idempotent and sticky. -/
  | cancelCtx (s : St) :
      Step s { s with cancelled := true }
  /-- The goroutine spawned by `ExecuteWithTimeout` starts the body:
  `executeWithRecover` invokes the wrapped task, passing it `e.ctx` — the
  executor's root context, not the `WithTimeout`-derived one. -/
  | wInvoke (s : St) (l₁ l₂ : List WTh) (w : WTh)
      (h : s.wths = l₁ ++ w :: l₂) (hpc : w.wpc = .idle) :
      Step s { s with wths := l₁ ++ { w with wpc := .running, ctxArg := some .root } :: l₂ }
  /-- The `ExecuteWithTimeout` body finishes; its result is sent into the
  private `resultChan` (buffer 1, the send never blocks). -/
  | wFinishBody (s : St) (l₁ l₂ : List WTh) (w : WTh)
      (h : s.wths = l₁ ++ w :: l₂) (hpc : w.wpc = .running) :
      Step s { s with wths := l₁ ++ { w with wpc := .sent,
                                             buf := some (executeWithRecover w.task) } :: l₂ }
  /-- The `context.WithTimeout(e.ctx, timeout)` scope of this call expires. -/
  | wTimerFire (s : St) (l₁ l₂ : List WTh) (w : WTh)
      (h : s.wths = l₁ ++ w :: l₂) :
      Step s { s with wths := l₁ ++ { w with timer := true } :: l₂ }
  /-- The caller's `select` receives from `resultChan` and returns the task's
  own result. -/
  | wSelectResult (s : St) (l₁ l₂ : List WTh) (w : WTh) (r : Result)
      (h : s.wths = l₁ ++ w :: l₂) (hw : w.waiter = .selecting) (hb : w.buf = some r) :
      Step s { s with wths := l₁ ++ { w with waiter := .retRes r, buf := none } :: l₂ }
  /-- The caller's `select` takes `<-ctx.Done()` (enabled when the derived
  scope expired or the root context is cancelled) and returns
  `Result\x7bErr: fmt.Errorf("任务在 %v 后超时", timeout)\x7d`. -/
  | wSelectTimeout (s : St) (l₁ l₂ : List WTh) (w : WTh)
      (h : s.wths = l₁ ++ w :: l₂) (hw : w.waiter = .selecting)
      (hd : w.timer = true ∨ s.cancelled = true) :
      Step s { s with wths := l₁ ++ { w with waiter := .retTimeout (timeoutResult w.dur) } :: l₂ }

/-- Open-system step: an internal `Step`, or a new submission arriving through
`Execute` (which does `e.wg.Add(1)` and spawns a goroutine at the `select`)
or through `ExecuteWithTimeout` (which spawns a body goroutine and a waiting
caller; it never touches `e.wg` or `e.workerPool`). -/
inductive SStep : St → St → Prop where
  | lift {s s' : St} (h : Step s s') : SStep s s'
  | spawnE (s : St) (o : Outcome) :
      SStep s { s with eths := s.eths ++ [{ task := o, pc := .waiting, invoked := false }],
                       wg := s.wg + 1 }
  | spawnW (s : St) (o : Outcome) (d : Nat) :
      SStep s { s with wths := s.wths ++ [{ task := o, dur := d, ctxArg := none,
                                            wpc := .idle, buf := none, timer := false,
                                            waiter := .selecting }] }

/-- Reachability in the open system (internal steps and new submissions). -/
def Reach : St → St → Prop := Relation.ReflTransGen SStep

/-- Reachability by internal steps only (no new submissions), as inside one
batch call such as `ExecuteAll`. -/
def BatchReach : St → St → Prop := Relation.ReflTransGen Step

theorem BatchReach.toReach {s s' : St} (h : BatchReach s s') : Reach s s' :=
  Relation.ReflTransGen.mono (fun _ _ hs => SStep.lift hs) h

theorem length_filter_mid {α : Type} (p : α → Bool) (l₁ l₂ : List α) (a : α) :
    (List.filter p (l₁ ++ a :: l₂)).length
      = (List.filter p l₁).length + (if p a then 1 else 0) + (List.filter p l₂).length := by
  by_cases h : p a
  · simp [List.filter_append, List.filter_cons, h]
    try omega
  · simp [List.filter_append, List.filter_cons, h]
    try omega

theorem sum_map_mid {α : Type} (f : α → Nat) (l₁ l₂ : List α) (a : α) :
    ((l₁ ++ a :: l₂).map f).sum = (l₁.map f).sum + f a + (l₂.map f).sum := by
  simp [List.map_append, List.sum_append]; omega

theorem forall_mem_mid {α : Type} {P : α → Prop} {l₁ l₂ : List α} {a : α} (b : α)
    (h : ∀ x ∈ l₁ ++ a :: l₂, P x) (hb : P b) : ∀ x ∈ l₁ ++ b :: l₂, P x := by
  intro x hx
  rcases List.mem_append.mp hx with h₁ | h₂
  · exact h x (List.mem_append.mpr (Or.inl h₁))
  · rcases List.mem_cons.mp h₂ with rfl | h₃
    · exact hb
    · exact h x (List.mem_append.mpr (Or.inr (List.mem_cons.mpr (Or.inr h₃))))

theorem mem_mid {α : Type} (l₁ l₂ : List α) (a : α) : a ∈ l₁ ++ a :: l₂ := by simp

theorem length_filter_le_of_imp {α : Type} (p q : α → Bool) (l : List α)
    (h : ∀ a, p a = true → q a = true) :
    (l.filter p).length ≤ (l.filter q).length := by
  induction l with
  | nil => simp
  | cons a l ih =>
    by_cases hp : p a
    · simp [List.filter_cons, hp, h a hp]; omega
    · by_cases hq : q a <;> simp [List.filter_cons, hp, hq] <;> omega

/-- Per-goroutine invariant for `Execute` goroutines: a carried result is
always what the panic guard produced for this task; the body has been invoked
exactly on the slot path. -/
def ETh.ok (t : ETh) : Prop :=
  (∀ r, (t.pc = .sendSlot r ∨ t.pc = .exiting r ∨ t.pc = .doneS r) → r = executeWithRecover t.task)
  ∧ (t.pc = .waiting → t.invoked = false)
  ∧ (t.pc.slotHeld = true → t.invoked = true)
  ∧ ((t.pc = .sendCancel ∨ t.pc = .exitingNC ∨ t.pc = .doneC) → t.invoked = false)

/-- Per-call invariant for `ExecuteWithTimeout`: once the body is invoked it
was handed the executor's root context; the private buffer and a returned
task result hold exactly the panic guard's output; a timeout return carries
exactly the formatted timeout error. -/
def WTh.ok (w : WTh) : Prop :=
  (w.wpc = .idle → w.ctxArg = none)
  ∧ (w.wpc ≠ .idle → w.ctxArg = some .root)
  ∧ (∀ r, w.buf = some r → r = executeWithRecover w.task)
  ∧ (∀ r, w.waiter = .retRes r → r = executeWithRecover w.task)
  ∧ (∀ r, w.waiter = .retTimeout r → r = timeoutResult w.dur)

/-- Global executor invariant: the `workerPool` token count equals the number
of slot-holding goroutines and never exceeds the capacity; the `WaitGroup`
counter equals the number of unfinished `Execute` goroutines; everything ever
received from `e.results` is accounted for by per-goroutine publish counts. -/
structure Inv (s : St) : Prop where
  poolEq : s.pool = countSlot s.eths
  poolLe : s.pool ≤ s.cap
  wgEq : s.wg = countActive s.eths
  colEq : s.collected.length = sumPub s.eths
  eok : ∀ t ∈ s.eths, t.ok
  wok : ∀ w ∈ s.wths, w.ok

theorem countSlot_mid (l₁ l₂ : List ETh) (t : ETh) :
    countSlot (l₁ ++ t :: l₂)
      = countSlot l₁ + (if t.pc.slotHeld then 1 else 0) + countSlot l₂ :=
  length_filter_mid _ l₁ l₂ t

theorem countActive_mid (l₁ l₂ : List ETh) (t : ETh) :
    countActive (l₁ ++ t :: l₂)
      = countActive l₁ + (if t.pc.activeWg then 1 else 0) + countActive l₂ :=
  length_filter_mid _ l₁ l₂ t

theorem countBodies_mid (l₁ l₂ : List ETh) (t : ETh) :
    countBodies (l₁ ++ t :: l₂)
      = countBodies l₁ + (if t.pc.bodyRunning then 1 else 0) + countBodies l₂ :=
  length_filter_mid _ l₁ l₂ t

theorem sumPub_mid (l₁ l₂ : List ETh) (t : ETh) :
    sumPub (l₁ ++ t :: l₂) = sumPub l₁ + t.pc.pubCount + sumPub l₂ :=
  sum_map_mid _ l₁ l₂ t

theorem wBodies_mid (l₁ l₂ : List WTh) (w : WTh) :
    wBodies (l₁ ++ w :: l₂)
      = wBodies l₁ + (if w.wpc.isRunning then 1 else 0) + wBodies l₂ :=
  length_filter_mid _ l₁ l₂ w

/-- The global invariant is preserved by every open-system step. -/
theorem inv_sstep {s s' : St} (hInv : Inv s) (hs : SStep s s') : Inv s' := by
  obtain ⟨hpool, hle, hwg, hcol, heok, hwok⟩ := hInv
  cases hs with
  | spawnE o =>
    refine ⟨?_, ?_, ?_, ?_, ?_, ?_⟩ <;> dsimp only
    · rw [show s.eths ++ [({ task := o, pc := .waiting, invoked := false } : ETh)]
          = s.eths ++ ({ task := o, pc := .waiting, invoked := false } : ETh) :: [] from rfl,
        countSlot_mid]
      simp [EPc.slotHeld, countSlot, hpool]
    · exact hle
    · rw [show s.eths ++ [({ task := o, pc := .waiting, invoked := false } : ETh)]
          = s.eths ++ ({ task := o, pc := .waiting, invoked := false } : ETh) :: [] from rfl,
        countActive_mid]
      simp [EPc.activeWg, countActive, hwg]
    · rw [show s.eths ++ [({ task := o, pc := .waiting, invoked := false } : ETh)]
          = s.eths ++ ({ task := o, pc := .waiting, invoked := false } : ETh) :: [] from rfl,
        sumPub_mid]
      simp [EPc.pubCount, sumPub, hcol]
    · intro t ht
      rcases List.mem_append.mp ht with h₁ | h₂
      · exact heok t h₁
      · rcases List.mem_cons.mp h₂ with rfl | h₃
        · simp [ETh.ok, EPc.slotHeld]
        · cases h₃
    · exact hwok
  | spawnW o d =>
    refine ⟨hpool, hle, hwg, hcol, heok, ?_⟩
    intro w hw
    rcases List.mem_append.mp hw with h₁ | h₂
    · exact hwok w h₁
    · rcases List.mem_cons.mp h₂ with rfl | h₃
      · simp [WTh.ok]
      · cases h₃
  | lift hstep =>
    cases hstep with
    | acquire l₁ l₂ t h hpc hcap =>
      rw [h] at hpool hwg hcol heok
      refine ⟨?_, ?_, ?_, ?_, ?_, hwok⟩ <;> dsimp only
      · rw [countSlot_mid] at hpool ⊢
        simp [hpc, EPc.slotHeld] at hpool ⊢
        omega
      · omega
      · rw [countActive_mid] at hwg ⊢
        simp [hpc, EPc.activeWg] at hwg ⊢
        omega
      · rw [sumPub_mid] at hcol ⊢
        simp [hpc, EPc.pubCount] at hcol ⊢
        omega
      · refine forall_mem_mid _ heok ?_
        simp [ETh.ok, EPc.slotHeld]
    | abandon l₁ l₂ t h hpc hc =>
      rw [h] at hpool hwg hcol heok
      have ht := heok t (mem_mid l₁ l₂ t)
      refine ⟨?_, hle, ?_, ?_, ?_, hwok⟩ <;> dsimp only
      · rw [countSlot_mid] at hpool ⊢
        simp [hpc, EPc.slotHeld] at hpool ⊢
        omega
      · rw [countActive_mid] at hwg ⊢
        simp [hpc, EPc.activeWg] at hwg ⊢
        omega
      · rw [sumPub_mid] at hcol ⊢
        simp [hpc, EPc.pubCount] at hcol ⊢
        omega
      · refine forall_mem_mid _ heok ?_
        have hinv := ht.2.1 hpc
        simp [ETh.ok, EPc.slotHeld, hinv]
    | finishBody l₁ l₂ t h hpc =>
      rw [h] at hpool hwg hcol heok
      have ht := heok t (mem_mid l₁ l₂ t)
      refine ⟨?_, hle, ?_, ?_, ?_, hwok⟩ <;> dsimp only
      · rw [countSlot_mid] at hpool ⊢
        simp [hpc, EPc.slotHeld] at hpool ⊢
        omega
      · rw [countActive_mid] at hwg ⊢
        simp [hpc, EPc.activeWg] at hwg ⊢
        omega
      · rw [sumPub_mid] at hcol ⊢
        simp [hpc, EPc.pubCount] at hcol ⊢
        omega
      · refine forall_mem_mid _ heok ?_
        have hinv := ht.2.2.1 (by simp [hpc, EPc.slotHeld])
        simp [ETh.ok, EPc.slotHeld, hinv]
    | recvSlot l₁ l₂ t r h hpc hcl =>
      rw [h] at hpool hwg hcol heok
      have ht := heok t (mem_mid l₁ l₂ t)
      refine ⟨?_, hle, ?_, ?_, ?_, hwok⟩ <;> dsimp only
      · rw [countSlot_mid] at hpool ⊢
        simp [hpc, EPc.slotHeld] at hpool ⊢
        omega
      · rw [countActive_mid] at hwg ⊢
        simp [hpc, EPc.activeWg] at hwg ⊢
        omega
      · rw [sumPub_mid] at hcol ⊢
        simp [hpc, EPc.pubCount] at hcol ⊢
        omega
      · refine forall_mem_mid _ heok ?_
        have hres := ht.1 r (Or.inl hpc)
        have hinv := ht.2.2.1 (by simp [hpc, EPc.slotHeld])
        simp [ETh.ok, EPc.slotHeld, hinv, hres]
    | recvCancel l₁ l₂ t h hpc hcl =>
      rw [h] at hpool hwg hcol heok
      have ht := heok t (mem_mid l₁ l₂ t)
      refine ⟨?_, hle, ?_, ?_, ?_, hwok⟩ <;> dsimp only
      · rw [countSlot_mid] at hpool ⊢
        simp [hpc, EPc.slotHeld] at hpool ⊢
        omega
      · rw [countActive_mid] at hwg ⊢
        simp [hpc, EPc.activeWg] at hwg ⊢
        omega
      · rw [sumPub_mid] at hcol ⊢
        simp [hpc, EPc.pubCount] at hcol ⊢
        omega
      · refine forall_mem_mid _ heok ?_
        have hinv := ht.2.2.2 (Or.inl hpc)
        simp [ETh.ok, EPc.slotHeld, hinv]
    | finishSlot l₁ l₂ t r h hpc =>
      rw [h] at hpool hwg hcol heok
      have ht := heok t (mem_mid l₁ l₂ t)
      refine ⟨?_, ?_, ?_, ?_, ?_, hwok⟩ <;> dsimp only
      · rw [countSlot_mid] at hpool ⊢
        simp [hpc, EPc.slotHeld] at hpool ⊢
        omega
      · omega
      · rw [countActive_mid] at hwg ⊢
        simp [hpc, EPc.activeWg] at hwg ⊢
        omega
      · rw [sumPub_mid] at hcol ⊢
        simp [hpc, EPc.pubCount] at hcol ⊢
        omega
      · refine forall_mem_mid _ heok ?_
        have hres := ht.1 r (Or.inr (Or.inl hpc))
        have hinv := ht.2.2.1 (by simp [hpc, EPc.slotHeld])
        simp [ETh.ok, EPc.slotHeld, hinv, hres]
    | finishNC l₁ l₂ t h hpc =>
      rw [h] at hpool hwg hcol heok
      have ht := heok t (mem_mid l₁ l₂ t)
      refine ⟨?_, hle, ?_, ?_, ?_, hwok⟩ <;> dsimp only
      · rw [countSlot_mid] at hpool ⊢
        simp [hpc, EPc.slotHeld] at hpool ⊢
        omega
      · rw [countActive_mid] at hwg ⊢
        simp [hpc, EPc.activeWg] at hwg ⊢
        omega
      · rw [sumPub_mid] at hcol ⊢
        simp [hpc, EPc.pubCount] at hcol ⊢
        omega
      · refine forall_mem_mid _ heok ?_
        have hinv := ht.2.2.2 (Or.inr (Or.inl hpc))
        simp [ETh.ok, EPc.slotHeld, hinv]
    | sendClosedSlot l₁ l₂ t r h hpc hcl =>
      rw [h] at hpool hwg hcol heok
      refine ⟨?_, ?_, ?_, ?_, ?_, hwok⟩ <;> dsimp only
      · rw [countSlot_mid] at hpool ⊢
        simp [hpc, EPc.slotHeld] at hpool ⊢
        omega
      · omega
      · rw [countActive_mid] at hwg ⊢
        simp [hpc, EPc.activeWg] at hwg ⊢
        omega
      · rw [sumPub_mid] at hcol ⊢
        simp [hpc, EPc.pubCount] at hcol ⊢
        omega
      · refine forall_mem_mid _ heok ?_
        simp [ETh.ok, EPc.slotHeld]
    | sendClosedCancel l₁ l₂ t h hpc hcl =>
      rw [h] at hpool hwg hcol heok
      refine ⟨?_, hle, ?_, ?_, ?_, hwok⟩ <;> dsimp only
      · rw [countSlot_mid] at hpool ⊢
        simp [hpc, EPc.slotHeld] at hpool ⊢
        omega
      · rw [countActive_mid] at hwg ⊢
        simp [hpc, EPc.activeWg] at hwg ⊢
        omega
      · rw [sumPub_mid] at hcol ⊢
        simp [hpc, EPc.pubCount] at hcol ⊢
        omega
      · refine forall_mem_mid _ heok ?_
        simp [ETh.ok, EPc.slotHeld]
    | closeChan hw hwg2 hcl =>
      exact ⟨hpool, hle, hwg, hcol, heok, hwok⟩
    | cancelCtx =>
      exact ⟨hpool, hle, hwg, hcol, heok, hwok⟩
    | wInvoke l₁ l₂ w h hpc =>
      rw [h] at hwok
      have hw := hwok w (mem_mid l₁ l₂ w)
      refine ⟨hpool, hle, hwg, hcol, heok, ?_⟩
      refine forall_mem_mid _ hwok ?_
      exact ⟨by simp [WTh.ok], by simp, hw.2.2.1, hw.2.2.2.1, hw.2.2.2.2⟩
    | wFinishBody l₁ l₂ w h hpc =>
      rw [h] at hwok
      have hw := hwok w (mem_mid l₁ l₂ w)
      have hctx := hw.2.1 (by simp [hpc])
      refine ⟨hpool, hle, hwg, hcol, heok, ?_⟩
      refine forall_mem_mid _ hwok ?_
      refine ⟨by simp, by simpa using hctx, by simp, hw.2.2.2.1, hw.2.2.2.2⟩
    | wTimerFire l₁ l₂ w h =>
      rw [h] at hwok
      have hw := hwok w (mem_mid l₁ l₂ w)
      refine ⟨hpool, hle, hwg, hcol, heok, ?_⟩
      refine forall_mem_mid _ hwok ?_
      exact ⟨hw.1, hw.2.1, hw.2.2.1, hw.2.2.2.1, hw.2.2.2.2⟩
    | wSelectResult l₁ l₂ w r h hw hb =>
      rw [h] at hwok
      have hwo := hwok w (mem_mid l₁ l₂ w)
      have hres := hwo.2.2.1 r hb
      refine ⟨hpool, hle, hwg, hcol, heok, ?_⟩
      refine forall_mem_mid _ hwok ?_
      refine ⟨hwo.1, hwo.2.1, by simp, ?_, by simp⟩
      intro r' hr'
      simp only [WaiterPc.retRes.injEq] at hr'
      subst hr'
      exact hres
    | wSelectTimeout l₁ l₂ w h hw hd =>
      rw [h] at hwok
      have hwo := hwok w (mem_mid l₁ l₂ w)
      refine ⟨hpool, hle, hwg, hcol, heok, ?_⟩
      refine forall_mem_mid _ hwok ?_
      refine ⟨hwo.1, hwo.2.1, hwo.2.2.1, by simp, ?_⟩
      intro r' hr'
      simp only [WaiterPc.retTimeout.injEq] at hr'
      subst hr'
      rfl

/-- The global invariant holds in every state reachable from any state that
satisfies it (open system). -/
theorem inv_reach {s s' : St} (hInv : Inv s) (h : Reach s s') : Inv s' := by
  induction h with
  | refl => exact hInv
  | tail _ hstep ih => exact inv_sstep ih hstep

/-- A freshly constructed executor satisfies the invariant. -/
theorem inv_init (c : Nat) : Inv (St.init c) := by
  refine ⟨rfl, by simp [St.init], rfl, rfl, ?_, ?_⟩ <;> simp [St.init]

/-- A freshly submitted batch of tasks holds no slots. -/
theorem fresh_countSlot (outs : List Outcome) :
    countSlot (outs.map (fun o => { task := o, pc := .waiting, invoked := false })) = 0 := by
  induction outs with
  | nil => rfl
  | cons o l ih => simpa [countSlot, List.filter_cons, EPc.slotHeld] using ih

/-- Every goroutine of a freshly submitted batch counts in `e.wg`. -/
theorem fresh_countActive (outs : List Outcome) :
    countActive (outs.map (fun o => { task := o, pc := .waiting, invoked := false }))
      = outs.length := by
  induction outs with
  | nil => rfl
  | cons o l ih => simpa [countActive, List.filter_cons, EPc.activeWg] using ih

/-- A freshly submitted batch has published nothing. -/
theorem fresh_sumPub (outs : List Outcome) :
    sumPub (outs.map (fun o => { task := o, pc := .waiting, invoked := false })) = 0 := by
  induction outs with
  | nil => rfl
  | cons o l ih => simpa [sumPub, EPc.pubCount] using ih

/-- `executeAllStart` satisfies the invariant. -/
theorem inv_executeAllStart (c : Nat) (outs : List Outcome) : Inv (executeAllStart c outs) := by
  refine ⟨?_, ?_, ?_, ?_, ?_, ?_⟩
  · exact (fresh_countSlot outs).symm
  · exact Nat.zero_le c
  · exact (fresh_countActive outs).symm
  · exact (fresh_sumPub outs).symm
  · intro t ht
    simp only [executeAllStart, St.init, List.mem_map] at ht
    obtain ⟨o, _, rfl⟩ := ht
    simp [ETh.ok, EPc.slotHeld]
  · intro w hw
    simp [executeAllStart, St.init] at hw

/-- `executeAllWithTimeoutStart` satisfies the invariant. -/
theorem inv_executeAllWithTimeoutStart (c : Nat) (outs : List Outcome) :
    Inv (executeAllWithTimeoutStart c outs) := by
  have h := inv_executeAllStart c outs
  obtain ⟨h1, h2, h3, h4, h5, h6⟩ := h
  exact ⟨h1, h2, h3, h4, h5, h6⟩

/-- Context cancellation is monotone under a single open-system step. -/
theorem cancelled_sstep {s s' : St} (h : SStep s s') (hc : s.cancelled = true) :
    s'.cancelled = true := by
  cases h with
  | lift hstep => cases hstep <;> simpa using hc
  | spawnE o => simpa using hc
  | spawnW o d => simpa using hc

/-- Context cancellation is monotone along any open-system run. -/
theorem cancelled_reach {s s' : St} (h : Reach s s') (hc : s.cancelled = true) :
    s'.cancelled = true := by
  induction h with
  | refl => exact hc
  | tail _ hstep ih => exact cancelled_sstep hstep ih

/-- No transition ever calls `Wait()`: `waitCalled` is constant along a run. -/
theorem waitCalled_sstep {s s' : St} (h : SStep s s') : s'.waitCalled = s.waitCalled := by
  cases h with
  | lift hstep => cases hstep <;> rfl
  | spawnE o => rfl
  | spawnW o d => rfl

/-- Once `e.results` is closed it stays closed. -/
theorem closed_sstep {s s' : St} (h : SStep s s') (hc : s.closed = true) : s'.closed = true := by
  cases h with
  | lift hstep => cases hstep <;> simpa using hc
  | spawnE o => simpa using hc
  | spawnW o d => simpa using hc

/-- Once `e.results` is closed it stays closed, along any run. -/
theorem closed_reach {s s' : St} (h : Reach s s') (hc : s.closed = true) : s'.closed = true := by
  induction h with
  | refl => exact hc
  | tail _ hstep ih => exact closed_sstep hstep ih

/-- The capacity is fixed at construction: no step changes it. -/
theorem cap_sstep {s s' : St} (h : SStep s s') : s'.cap = s.cap := by
  cases h with
  | lift hstep => cases hstep <;> rfl
  | spawnE o => rfl
  | spawnW o d => rfl

/-- The capacity is fixed along any run. -/
theorem cap_reach {s s' : St} (h : Reach s s') : s'.cap = s.cap := by
  induction h with
  | refl => rfl
  | tail _ hstep ih => rw [cap_sstep hstep, ih]

/-- If `Wait()` is never called, `e.results` can never be closed, no send can
ever hit a closed channel, and no goroutine can fault: runs that never call
`Wait` keep `closed = false`, `crashed = false` and fault-free goroutines. -/
theorem noWait_noClose {s s' : St} (h : Reach s s')
    (hw : s.waitCalled = false) (hcl : s.closed = false) (hcr : s.crashed = false)
    (hf : ∀ t ∈ s.eths, t.pc ≠ .faulted) :
    s'.waitCalled = false ∧ s'.closed = false ∧ s'.crashed = false ∧
      ∀ t ∈ s'.eths, t.pc ≠ .faulted := by
  induction h with
  | refl => exact ⟨hw, hcl, hcr, hf⟩
  | tail _ hstep ih =>
    obtain ⟨ihw, ihcl, ihcr, ihf⟩ := ih
    cases hstep with
    | spawnE o =>
      refine ⟨ihw, ihcl, ihcr, ?_⟩
      intro t ht
      rcases List.mem_append.mp ht with h₁ | h₂
      · exact ihf t h₁
      · rcases List.mem_cons.mp h₂ with rfl | h₃
        · simp
        · cases h₃
    | spawnW o d => exact ⟨ihw, ihcl, ihcr, ihf⟩
    | lift hstep2 =>
      cases hstep2 with
      | acquire l₁ l₂ t h hpc hcap =>
        rw [h] at ihf
        exact ⟨ihw, ihcl, ihcr, forall_mem_mid _ ihf (by simp [hpc])⟩
      | abandon l₁ l₂ t h hpc hc =>
        rw [h] at ihf
        exact ⟨ihw, ihcl, ihcr, forall_mem_mid _ ihf (by simp [hpc])⟩
      | finishBody l₁ l₂ t h hpc =>
        rw [h] at ihf
        exact ⟨ihw, ihcl, ihcr, forall_mem_mid _ ihf (by simp [hpc])⟩
      | recvSlot l₁ l₂ t r h hpc hcl2 =>
        rw [h] at ihf
        exact ⟨ihw, ihcl, ihcr, forall_mem_mid _ ihf (by simp [hpc])⟩
      | recvCancel l₁ l₂ t h hpc hcl2 =>
        rw [h] at ihf
        exact ⟨ihw, ihcl, ihcr, forall_mem_mid _ ihf (by simp [hpc])⟩
      | finishSlot l₁ l₂ t r h hpc =>
        rw [h] at ihf
        exact ⟨ihw, ihcl, ihcr, forall_mem_mid _ ihf (by simp [hpc])⟩
      | finishNC l₁ l₂ t h hpc =>
        rw [h] at ihf
        exact ⟨ihw, ihcl, ihcr, forall_mem_mid _ ihf (by simp [hpc])⟩
      | sendClosedSlot l₁ l₂ t r h hpc hcl2 =>
        rw [ihcl] at hcl2
        cases hcl2
      | sendClosedCancel l₁ l₂ t h hpc hcl2 =>
        rw [ihcl] at hcl2
        cases hcl2
      | closeChan hw2 hwg hcl2 =>
        rw [ihw] at hw2
        cases hw2
      | cancelCtx => exact ⟨ihw, ihcl, ihcr, ihf⟩
      | wInvoke l₁ l₂ w h hpc => exact ⟨ihw, ihcl, ihcr, ihf⟩
      | wFinishBody l₁ l₂ w h hpc => exact ⟨ihw, ihcl, ihcr, ihf⟩
      | wTimerFire l₁ l₂ w h => exact ⟨ihw, ihcl, ihcr, ihf⟩
      | wSelectResult l₁ l₂ w r h hw2 hb => exact ⟨ihw, ihcl, ihcr, ihf⟩
      | wSelectTimeout l₁ l₂ w h hw2 hd => exact ⟨ihw, ihcl, ihcr, ihf⟩

theorem countActive_zero {l : List ETh} (h : countActive l = 0) :
    ∀ t ∈ l, t.pc.activeWg = false := by
  intro t ht
  have := List.filter_eq_nil_iff.mp (List.length_eq_zero.mp h) t ht
  simpa using this

theorem sumPub_all_one {l : List ETh} (h : ∀ t ∈ l, t.pc.pubCount = 1) :
    sumPub l = l.length := by
  induction l with
  | nil => rfl
  | cons t l ih =>
    have ht := h t (List.mem_cons_self t l)
    have hl := ih (fun x hx => h x (List.mem_cons_of_mem t hx))
    simp only [sumPub, List.map_cons, List.sum_cons, List.length_cons, ht]
    simp only [sumPub] at hl
    omega

theorem pubCount_one_of_inactive {pc : EPc} (ha : pc.activeWg = false) (hf : pc ≠ .faulted) :
    pc.pubCount = 1 := by
  cases pc <;> simp_all [EPc.activeWg, EPc.pubCount]

/-- Invariant of one `ExecuteAll` batch run on a fresh executor: the set of
goroutines is fixed (`n` of them), none has faulted, and the channel is only
closed once every goroutine is finished (so every result has been received:
the closer runs only after `wg` hits zero, and each send happens before the
corresponding `wg.Done()`). -/
structure BInv (n : Nat) (s : St) : Prop where
  base : Inv s
  len : s.eths.length = n
  noFault : ∀ t ∈ s.eths, t.pc ≠ .faulted
  closedAll : s.closed = true → ∀ t ∈ s.eths, t.pc.activeWg = false

/-- The batch invariant is preserved by internal steps. -/
theorem binv_step {n : Nat} {s s' : St} (hInv : BInv n s) (hs : Step s s') : BInv n s' := by
  obtain ⟨base, hlen, hnf, hca⟩ := hInv
  have base' : Inv s' := inv_sstep base (SStep.lift hs)
  cases hs with
  | acquire l₁ l₂ t h hpc hcap =>
    rw [h] at hlen hnf hca
    refine ⟨base', by simpa using hlen, forall_mem_mid _ hnf (by simp [hpc]), ?_⟩
    intro hcl
    have := hca hcl t (mem_mid l₁ l₂ t)
    rw [hpc] at this
    cases this
  | abandon l₁ l₂ t h hpc hc =>
    rw [h] at hlen hnf hca
    refine ⟨base', by simpa using hlen, forall_mem_mid _ hnf (by simp [hpc]), ?_⟩
    intro hcl
    have := hca hcl t (mem_mid l₁ l₂ t)
    rw [hpc] at this
    cases this
  | finishBody l₁ l₂ t h hpc =>
    rw [h] at hlen hnf hca
    refine ⟨base', by simpa using hlen, forall_mem_mid _ hnf (by simp [hpc]), ?_⟩
    intro hcl
    have := hca hcl t (mem_mid l₁ l₂ t)
    rw [hpc] at this
    cases this
  | recvSlot l₁ l₂ t r h hpc hcl2 =>
    rw [h] at hlen hnf hca
    refine ⟨base', by simpa using hlen, forall_mem_mid _ hnf (by simp [hpc]), ?_⟩
    intro hcl
    cases hcl2.symm.trans hcl
  | recvCancel l₁ l₂ t h hpc hcl2 =>
    rw [h] at hlen hnf hca
    refine ⟨base', by simpa using hlen, forall_mem_mid _ hnf (by simp [hpc]), ?_⟩
    intro hcl
    cases hcl2.symm.trans hcl
  | finishSlot l₁ l₂ t r h hpc =>
    rw [h] at hlen hnf hca
    refine ⟨base', by simpa using hlen, forall_mem_mid _ hnf (by simp [hpc]), ?_⟩
    intro hcl
    have := hca hcl t (mem_mid l₁ l₂ t)
    rw [hpc] at this
    cases this
  | finishNC l₁ l₂ t h hpc =>
    rw [h] at hlen hnf hca
    refine ⟨base', by simpa using hlen, forall_mem_mid _ hnf (by simp [hpc]), ?_⟩
    intro hcl
    have := hca hcl t (mem_mid l₁ l₂ t)
    rw [hpc] at this
    cases this
  | sendClosedSlot l₁ l₂ t r h hpc hcl2 =>
    rw [h] at hca
    have := hca hcl2 t (mem_mid l₁ l₂ t)
    rw [hpc] at this
    cases this
  | sendClosedCancel l₁ l₂ t h hpc hcl2 =>
    rw [h] at hca
    have := hca hcl2 t (mem_mid l₁ l₂ t)
    rw [hpc] at this
    cases this
  | closeChan hw hwg hcl =>
    refine ⟨base', hlen, hnf, ?_⟩
    intro _
    have hc0 : countActive s.eths = 0 := by
      have := base.wgEq
      omega
    exact countActive_zero hc0
  | cancelCtx => exact ⟨base', hlen, hnf, hca⟩
  | wInvoke l₁ l₂ w h hpc => exact ⟨base', hlen, hnf, hca⟩
  | wFinishBody l₁ l₂ w h hpc => exact ⟨base', hlen, hnf, hca⟩
  | wTimerFire l₁ l₂ w h => exact ⟨base', hlen, hnf, hca⟩
  | wSelectResult l₁ l₂ w r h hw hb => exact ⟨base', hlen, hnf, hca⟩
  | wSelectTimeout l₁ l₂ w h hw hd => exact ⟨base', hlen, hnf, hca⟩

/-- The batch invariant holds along any internal-step run. -/
theorem binv_reach {n : Nat} {s s' : St} (hInv : BInv n s) (h : BatchReach s s') : BInv n s' := by
  induction h with
  | refl => exact hInv
  | tail _ hstep ih => exact binv_step ih hstep

/-- The batch invariant holds at the start of an `ExecuteAll` run. -/
theorem binv_executeAllStart (c : Nat) (outs : List Outcome) :
    BInv outs.length (executeAllStart c outs) := by
  refine ⟨inv_executeAllStart c outs, by simp [executeAllStart, St.init], ?_, ?_⟩
  · intro t ht
    simp only [executeAllStart, St.init, List.mem_map] at ht
    obtain ⟨o, _, rfl⟩ := ht
    simp
  · intro hcl
    cases hcl

/-- Claim C4: for a fresh executor and any `K ≥ 0` tasks, `ExecuteAll` returns
exactly `K` `Result`s, one per submitted task.  The drain loop
`for result := range e.Results()` ends exactly when the channel is closed
(`s.closed = true`); at that point the number of collected results equals the
number of submitted tasks, for every interleaving of the batch run. -/
theorem executeAll_returns_one_result_per_task (c : Nat) (outs : List Outcome) (s : St)
    (h : BatchReach (executeAllStart c outs) s) (hcl : s.closed = true) :
    s.collected.length = outs.length := by
  have hb := binv_reach (binv_executeAllStart c outs) h
  obtain ⟨base, hlen, hnf, hca⟩ := hb
  have hall : ∀ t ∈ s.eths, t.pc.pubCount = 1 := fun t ht =>
    pubCount_one_of_inactive (hca hcl t ht) (hnf t ht)
  rw [base.colEq, sumPub_all_one hall, hlen]

/-- Concrete task used by the C4 witness run. -/
def c4task : Outcome := .ret (some "a") none

/-- Final state of the C4 witness run: the single task ran, its result was
collected, the `WaitGroup` drained and the channel was closed. -/
def c4end : St :=
  { cap := 1, pool := 0, wg := 0, cancelled := false, waitCalled := true,
    closed := true, crashed := false,
    eths := [{ task := c4task, pc := .doneS (executeWithRecover c4task), invoked := true }],
    wths := [], collected := [executeWithRecover c4task] }

/-- Successive program points of the single goroutine in the C4 witness run. -/
def c4th0 : ETh := { task := c4task, pc := .waiting, invoked := false }

def c4th1 : ETh := { task := c4task, pc := .running, invoked := true }

def c4th2 : ETh := { task := c4task, pc := .sendSlot (executeWithRecover c4task), invoked := true }

def c4th3 : ETh := { task := c4task, pc := .exiting (executeWithRecover c4task), invoked := true }

theorem executeAll_returns_one_result_per_task_witness : c4end.collected.length = 1 := by
  have h1 : BatchReach (executeAllStart 1 [c4task]) c4end := by
    refine Relation.ReflTransGen.head (Step.acquire _ [] [] c4th0 rfl rfl (by decide)) ?_
    refine Relation.ReflTransGen.head (Step.finishBody _ [] [] c4th1 rfl rfl) ?_
    refine Relation.ReflTransGen.head
      (Step.recvSlot _ [] [] c4th2 (executeWithRecover c4task) rfl rfl rfl) ?_
    refine Relation.ReflTransGen.head
      (Step.finishSlot _ [] [] c4th3 (executeWithRecover c4task) rfl rfl) ?_
    refine Relation.ReflTransGen.head (Step.closeChan _ rfl rfl rfl) ?_
    exact Relation.ReflTransGen.refl
  exact executeAll_returns_one_result_per_task 1 [c4task] c4end h1 rfl

/-- Claim C2: every `Execute(task)` call publishes exactly one `Result` to
`e.results` — one for the whole goroutine whether the task returns normally,
returns an error, panics (the published result is then exactly what the panic
guard produced), or the cancellation branch fires before a slot is acquired
(the published result is the cancellation error and the body is never
invoked).  Formally, along any run of a fresh executor (where `Wait` is never
invoked, so no send can fault): each `Execute` goroutine publishes at most
one result, a finished goroutine has published exactly one, a goroutine
finished on the slot path carries `executeWithRecover(task)`, one finished on
the cancellation path never invoked its body, and everything received from
the sink is accounted for by these per-goroutine publish counts. -/
theorem execute_publishes_exactly_one_result (c : Nat) (s : St)
    (h : Reach (St.init c) s) :
    (∀ t ∈ s.eths,
      t.pc.pubCount ≤ 1 ∧
      t.pc ≠ .faulted ∧
      (t.pc.isDone = true → t.pc.pubCount = 1) ∧
      (∀ r, t.pc = .doneS r → r = executeWithRecover t.task) ∧
      (t.pc = .doneC → t.invoked = false)) ∧
    s.collected.length = sumPub s.eths := by
  have hInv := inv_reach (inv_init c) h
  have hnw := noWait_noClose h rfl rfl rfl (by intro t ht; simp [St.init] at ht)
  refine ⟨?_, hInv.colEq⟩
  intro t ht
  have he := hInv.eok t ht
  refine ⟨?_, hnw.2.2.2 t ht, ?_, ?_, ?_⟩
  · cases t.pc <;> simp [EPc.pubCount]
  · cases hpc : t.pc <;> simp [EPc.isDone, EPc.pubCount]
  · intro r hr
    exact he.1 r (Or.inr (Or.inr hr))
  · intro hr
    exact he.2.2.2 (Or.inr (Or.inr hr))

/-- Concrete task used by the C2 witness run. -/
def c2task : Outcome := .panics "boom"

/-- Thread states of the single goroutine in the C2 witness run. -/
def c2th0 : ETh := { task := c2task, pc := .waiting, invoked := false }

def c2th1 : ETh := { task := c2task, pc := .running, invoked := true }

def c2th2 : ETh := { task := c2task, pc := .sendSlot (executeWithRecover c2task), invoked := true }

def c2th3 : ETh := { task := c2task, pc := .exiting (executeWithRecover c2task), invoked := true }

/-- Final state of the C2 witness run: one submission through `Execute` on a
fresh executor (no `Wait`), its single result drained via `Results()`. -/
def c2end : St :=
  { cap := 1, pool := 0, wg := 0, cancelled := false, waitCalled := false,
    closed := false, crashed := false,
    eths := [{ task := c2task, pc := .doneS (executeWithRecover c2task), invoked := true }],
    wths := [], collected := [executeWithRecover c2task] }

theorem execute_publishes_exactly_one_result_witness :
    c2end.collected.length = sumPub c2end.eths := by
  have h1 : Reach (St.init 1) c2end := by
    refine Relation.ReflTransGen.head (SStep.spawnE (St.init 1) c2task) ?_
    refine Relation.ReflTransGen.head
      (SStep.lift (Step.acquire _ [] [] c2th0 rfl rfl (by decide))) ?_
    refine Relation.ReflTransGen.head (SStep.lift (Step.finishBody _ [] [] c2th1 rfl rfl)) ?_
    refine Relation.ReflTransGen.head
      (SStep.lift (Step.recvSlot _ [] [] c2th2 (executeWithRecover c2task) rfl rfl rfl)) ?_
    refine Relation.ReflTransGen.head
      (SStep.lift (Step.finishSlot _ [] [] c2th3 (executeWithRecover c2task) rfl rfl)) ?_
    exact Relation.ReflTransGen.refl
  exact (execute_publishes_exactly_one_result 1 c2end h1).2

/-- Claim C3: a task that panics with payload `p` does not propagate the
panic through `executeWithRecover` (the guard is total and returns a
`Result`); the returned `Result` has a non-nil error whose rendered text
contains the text of `p` (the error is `fmt.Errorf("发生 panic：%v", r)`). -/
theorem panic_guard_result_contains_payload (p : String) :
    (executeWithRecover (.panics p)).Err.isSome = true ∧
    ∀ e, (executeWithRecover (.panics p)).Err = some e → p.data <:+: e.text.data := by
  refine ⟨rfl, ?_⟩
  intro e he
  simp only [executeWithRecover, Option.some.injEq] at he
  subst he
  refine ⟨"发生 panic：".data, [], ?_⟩
  simp [GoError.text, String.data_append]

theorem panic_guard_result_contains_payload_witness :
    (executeWithRecover (.panics "boom")).Err.isSome = true ∧
    "boom".data <:+: (GoError.panicErr "boom").text.data :=
  ⟨(panic_guard_result_contains_payload "boom").1,
   (panic_guard_result_contains_payload "boom").2 (GoError.panicErr "boom") rfl⟩

/-- Claim C9 counterexample: `NewAsyncExecutor` does not fail fast on a
non-positive capacity.  At capacity `0` it happily constructs an executor
(whose worker pool then has zero slots); no configuration error is raised. -/
theorem newAsyncExecutor_no_failfast_counterexample :
    NewAsyncExecutor 0 = .ok { workerPoolCap := 0, resultsCap := 0 } := rfl

/-- Claim C9 amended: `NewAsyncExecutor` performs no validation of its
capacity argument.  For `workers = 0` it returns an executor whose pool has
zero slots; for `workers < 0` the channel allocation
`make(chan struct, workers)` raises a runtime panic
(`makechan: size out of range`), which is not an explicit configuration
error. -/
theorem newAsyncExecutor_no_validation :
    NewAsyncExecutor 0 = .ok { workerPoolCap := 0, resultsCap := 0 } ∧
    ∀ w : Int, w < 0 → NewAsyncExecutor w = .error "makechan: size out of range" := by
  refine ⟨rfl, ?_⟩
  intro w hw
  simp [NewAsyncExecutor, makeChan, hw, Except.map]

theorem newAsyncExecutor_no_validation_witness :
    NewAsyncExecutor (-1) = .error "makechan: size out of range" :=
  newAsyncExecutor_no_validation.2 (-1) (by decide)

/-- Concrete task used in the C1 counterexample run. -/
def c1task : Outcome := .ret (some "x") none

/-- A fresh `ExecuteWithTimeout(task, 5)` call before its body starts. -/
def c1w0 : WTh :=
  { task := c1task, dur := 5, ctxArg := none, wpc := .idle, buf := none,
    timer := false, waiter := .selecting }

/-- The same call with its body executing (invoked with the root context). -/
def c1w1 : WTh :=
  { task := c1task, dur := 5, ctxArg := some .root, wpc := .running, buf := none,
    timer := false, waiter := .selecting }

/-- Reachable state with capacity 1 and two `ExecuteWithTimeout` bodies
executing concurrently. -/
def c1bad : St := { St.init 1 with wths := [c1w1, c1w1] }

/-- Claim C1 counterexample: an executor of capacity `C = 1` can reach a
state in which `2 > C` task bodies execute concurrently, because
`ExecuteWithTimeout` spawns its body goroutine without ever touching
`e.workerPool`.  Two concurrent `ExecuteWithTimeout` submissions suffice. -/
theorem capacity_bound_counterexample :
    Reach (St.init 1) c1bad ∧ ¬ bodiesAll c1bad ≤ (St.init 1).cap := by
  constructor
  · refine Relation.ReflTransGen.head (SStep.spawnW (St.init 1) c1task 5) ?_
    refine Relation.ReflTransGen.head (SStep.spawnW _ c1task 5) ?_
    refine Relation.ReflTransGen.head
      (SStep.lift (Step.wInvoke _ [] [c1w0] c1w0 rfl rfl)) ?_
    refine Relation.ReflTransGen.head
      (SStep.lift (Step.wInvoke _ [c1w1] [] c1w0 rfl rfl)) ?_
    exact Relation.ReflTransGen.refl
  · decide

/-- Claim C1 amended: the capacity bound does hold for every task body that
runs through `Execute`'s admission path — and hence for `ExecuteAll` and
`ExecuteAllWithTimeout`, which submit exclusively through `Execute` — for
every capacity and every interleaving: at most `c` `Execute`-path bodies
execute concurrently.  Bodies spawned by `ExecuteWithTimeout` bypass the
limiter and are not bounded by `c`. -/
theorem capacity_bounds_execute_bodies (c : Nat) (s : St) (h : Reach (St.init c) s) :
    countBodies s.eths ≤ c := by
  have hInv := inv_reach (inv_init c) h
  have hcap : s.cap = c := cap_reach h
  have hmono : countBodies s.eths ≤ countSlot s.eths := by
    refine length_filter_le_of_imp _ _ _ ?_
    intro t ht
    cases hpc : t.pc <;> simp_all [EPc.bodyRunning, EPc.slotHeld]
  have h1 := hInv.poolEq
  have h2 := hInv.poolLe
  omega

/-- Task and states for the C1 amended-claim witness run. -/
def c1amTask : Outcome := .ret (some "y") none

def c1amth0 : ETh := { task := c1amTask, pc := .waiting, invoked := false }

def c1amEnd : St :=
  { St.init 1 with eths := [{ task := c1amTask, pc := .running, invoked := true }],
                   wg := 1, pool := 1 }

theorem capacity_bounds_execute_bodies_witness : countBodies c1amEnd.eths ≤ 1 := by
  have h1 : Reach (St.init 1) c1amEnd := by
    refine Relation.ReflTransGen.head (SStep.spawnE (St.init 1) c1amTask) ?_
    refine Relation.ReflTransGen.head
      (SStep.lift (Step.acquire _ [] [] c1amth0 rfl rfl (by decide))) ?_
    exact Relation.ReflTransGen.refl
  exact capacity_bounds_execute_bodies 1 c1amEnd h1

/-- Concrete task used in the C6 runs. -/
def c6task : Outcome := .ret (some "z") none

/-- A fresh `ExecuteWithTimeout(task, 9)` call before its body starts. -/
def c6w0 : WTh :=
  { task := c6task, dur := 9, ctxArg := none, wpc := .idle, buf := none,
    timer := false, waiter := .selecting }

/-- The same call with its body executing. -/
def c6w1 : WTh :=
  { task := c6task, dur := 9, ctxArg := some .root, wpc := .running, buf := none,
    timer := false, waiter := .selecting }

/-- Reachable state with one `ExecuteWithTimeout` body executing. -/
def c6bad : St := { St.init 1 with wths := [c6w1] }

/-- Claim C6 counterexample: `ExecuteWithTimeout` does not go through
`Execute`'s admission path and does not hand the task the derived
time-bounded scope.  In the reached state the body is executing while the
worker pool holds zero tokens (under the claim, a slot would have been
acquired before invocation), and the context passed to the body is the
executor's root context, not the `WithTimeout`-derived scope. -/
theorem executeWithTimeout_bypasses_admission_counterexample :
    Reach (St.init 1) c6bad ∧
    bodiesAll c6bad = 1 ∧
    c6bad.pool = 0 ∧
    c6bad.wths.map WTh.ctxArg = [some CtxId.root] ∧
    c6bad.wths.map WTh.ctxArg ≠ [some CtxId.timeoutScoped] := by
  refine ⟨?_, by decide, rfl, rfl, by decide⟩
  refine Relation.ReflTransGen.head (SStep.spawnW (St.init 1) c6task 9) ?_
  refine Relation.ReflTransGen.head (SStep.lift (Step.wInvoke _ [] [] c6w0 rfl rfl)) ?_
  exact Relation.ReflTransGen.refl

/-- Claim C6 amended: `ExecuteWithTimeout` runs the task through the same
Panic Guard as `Execute` (`executeWithRecover`: anything it buffers in its
private `resultChan` is exactly the guard's output for the task), but it
bypasses the capacity limiter (`e.workerPool` tokens are held exclusively by
`Execute` goroutines) and invokes the task with the executor's root context
`e.ctx`, so the task does not observe expiry of `d`; the derived
`WithTimeout` scope bounds only the caller's wait. -/
theorem executeWithTimeout_guard_and_root_ctx (c : Nat) (s : St) (h : Reach (St.init c) s) :
    (∀ w ∈ s.wths,
      (w.wpc ≠ .idle → w.ctxArg = some CtxId.root) ∧
      (∀ r, w.buf = some r → r = executeWithRecover w.task)) ∧
    s.pool = countSlot s.eths := by
  have hInv := inv_reach (inv_init c) h
  exact ⟨fun w hw => ⟨(hInv.wok w hw).2.1, (hInv.wok w hw).2.2.1⟩, hInv.poolEq⟩

theorem executeWithTimeout_guard_and_root_ctx_witness : c6w1.ctxArg = some CtxId.root := by
  have h1 : Reach (St.init 1) c6bad := by
    refine Relation.ReflTransGen.head (SStep.spawnW (St.init 1) c6task 9) ?_
    refine Relation.ReflTransGen.head (SStep.lift (Step.wInvoke _ [] [] c6w0 rfl rfl)) ?_
    exact Relation.ReflTransGen.refl
  exact ((executeWithTimeout_guard_and_root_ctx 1 c6bad h1).1 c6w1 (by simp [c6bad])).1
    (by decide)

/-- Concrete task used in the C8 runs. -/
def c8task : Outcome := .ret (some "s") none

/-- A submission arriving after shutdown, before the `select`. -/
def c8th0 : ETh := { task := c8task, pc := .waiting, invoked := false }

/-- Reachable state in which a task submitted after `Shutdown` returned is
nevertheless executing. -/
def c8bad : St :=
  { cap := 1, pool := 1, wg := 1, cancelled := true, waitCalled := false,
    closed := false, crashed := false,
    eths := [{ task := c8task, pc := .running, invoked := true }],
    wths := [], collected := [] }

/-- Claim C8 counterexample: after `Shutdown` has cancelled the root context,
a task passed to `Execute` can still be started.  `Execute`'s `select` races
`e.workerPool <- struct` against `<-e.ctx.Done()`; with a free slot both
cases are ready and Go may pick the pool case, so the body is invoked.  The
reached state has the post-shutdown submission running with its body invoked. -/
theorem shutdown_rejection_counterexample :
    Reach (shutdownSignal (St.init 1)) c8bad ∧
    c8bad.cancelled = true ∧
    c8bad.eths.map ETh.invoked = [true] ∧
    c8bad.eths.map ETh.pc = [EPc.running] := by
  refine ⟨?_, rfl, rfl, rfl⟩
  refine Relation.ReflTransGen.head (SStep.spawnE (shutdownSignal (St.init 1)) c8task) ?_
  refine Relation.ReflTransGen.head
    (SStep.lift (Step.acquire _ [] [] c8th0 rfl rfl (by decide))) ?_
  exact Relation.ReflTransGen.refl

/-- Claim C8 amended: after `Shutdown` returns (with either outcome) the root
context is cancelled and stays cancelled forever, and for every submission
still waiting at the `select` the rejection branch is enabled: the goroutine
may take `<-e.ctx.Done()` and publish a cancellation `Result` without ever
invoking the body.  Rejection is possible but not guaranteed — a waiting
submission may still be started while a pool slot is free. -/
theorem shutdown_cancellation_sticky (s s' : St) (h : Reach (shutdownSignal s) s') :
    s'.cancelled = true ∧
    ∀ l₁ t l₂, s'.eths = l₁ ++ t :: l₂ → t.pc = .waiting →
      SStep s' { s' with eths := l₁ ++ { t with pc := .sendCancel } :: l₂ } := by
  have hc : s'.cancelled = true := cancelled_reach h rfl
  exact ⟨hc, fun l₁ t l₂ hl hpc => SStep.lift (Step.abandon s' l₁ l₂ t hl hpc hc)⟩

/-- Post-shutdown state with one pending submission, for the C8 witness. -/
def c8wEnd : St :=
  { cap := 1, pool := 0, wg := 1, cancelled := true, waitCalled := false,
    closed := false, crashed := false, eths := [c8th0], wths := [], collected := [] }

theorem shutdown_cancellation_sticky_witness :
    SStep c8wEnd { c8wEnd with eths := [] ++ { c8th0 with pc := .sendCancel } :: [] } := by
  have h1 : Reach (shutdownSignal (St.init 1)) c8wEnd := by
    refine Relation.ReflTransGen.head (SStep.spawnE (shutdownSignal (St.init 1)) c8task) ?_
    exact Relation.ReflTransGen.refl
  exact (shutdown_cancellation_sticky (St.init 1) c8wEnd h1).2 [] c8th0 [] rfl rfl

/-- Claim C7 (code-bug evidence): inside `ExecuteAllWithTimeout` the
full-drainage arm of the race can never fire.  The function never calls
`Wait()`, so nothing ever closes `e.results`; hence
`for result := range e.Results()` never terminates, `close(done)` is
unreachable, and the `select` can only complete through `<-ctx.Done()` — the
call always blocks for the full duration even when every submitted task's
`Result` has already been collected.  Formally: in every state reachable
inside an `ExecuteAllWithTimeout` run the channel is still open
(`closed = false`), which is the guard of the drain loop's termination. -/
theorem executeAllWithTimeout_drain_never_completes (c : Nat) (outs : List Outcome) (s : St)
    (h : BatchReach (executeAllWithTimeoutStart c outs) s) : s.closed = false := by
  have hnw := noWait_noClose h.toReach rfl rfl rfl ?_
  · exact hnw.2.1
  · intro t ht
    simp only [executeAllWithTimeoutStart, St.init, List.mem_map] at ht
    obtain ⟨o, _, rfl⟩ := ht
    simp

/-- Concrete task for the C7 witness run (returns immediately). -/
def c7task : Outcome := .ret (some "a") none

/-- Thread states of the single goroutine in the C7 witness run. -/
def c7th0 : ETh := { task := c7task, pc := .waiting, invoked := false }

def c7th1 : ETh := { task := c7task, pc := .running, invoked := true }

def c7th2 : ETh := { task := c7task, pc := .sendSlot (executeWithRecover c7task), invoked := true }

def c7th3 : ETh := { task := c7task, pc := .exiting (executeWithRecover c7task), invoked := true }

/-- `ExecuteAllWithTimeout(10s, oneInstantTask)` with the task finished and
its result already collected: the channel is still open, so the drainage arm
never fires and the call waits out the whole timeout. -/
def c7end : St :=
  { cap := 1, pool := 0, wg := 0, cancelled := false, waitCalled := false,
    closed := false, crashed := false,
    eths := [{ task := c7task, pc := .doneS (executeWithRecover c7task), invoked := true }],
    wths := [], collected := [executeWithRecover c7task] }

theorem executeAllWithTimeout_drain_never_completes_witness : c7end.closed = false := by
  have h1 : BatchReach (executeAllWithTimeoutStart 1 [c7task]) c7end := by
    refine Relation.ReflTransGen.head (Step.acquire _ [] [] c7th0 rfl rfl (by decide)) ?_
    refine Relation.ReflTransGen.head (Step.finishBody _ [] [] c7th1 rfl rfl) ?_
    refine Relation.ReflTransGen.head
      (Step.recvSlot _ [] [] c7th2 (executeWithRecover c7task) rfl rfl rfl) ?_
    refine Relation.ReflTransGen.head
      (Step.finishSlot _ [] [] c7th3 (executeWithRecover c7task) rfl rfl) ?_
    exact Relation.ReflTransGen.refl
  exact executeAllWithTimeout_drain_never_completes 1 [c7task] c7end h1

/-- Concrete tasks for the C10 run: one through the `ExecuteAll` batch, one
submitted afterwards. -/
def c10task : Outcome := .ret (some "v") none

def c10task2 : Outcome := .ret (some "w") none

/-- Thread states of the batch goroutine in the C10 run. -/
def c10th0 : ETh := { task := c10task, pc := .waiting, invoked := false }

def c10th1 : ETh := { task := c10task, pc := .running, invoked := true }

def c10th2 : ETh :=
  { task := c10task, pc := .sendSlot (executeWithRecover c10task), invoked := true }

def c10th3 : ETh :=
  { task := c10task, pc := .exiting (executeWithRecover c10task), invoked := true }

def c10done : ETh :=
  { task := c10task, pc := .doneS (executeWithRecover c10task), invoked := true }

/-- Thread states of the post-batch submission in the C10 run. -/
def c10bth0 : ETh := { task := c10task2, pc := .waiting, invoked := false }

def c10bth1 : ETh := { task := c10task2, pc := .running, invoked := true }

def c10bth2 : ETh :=
  { task := c10task2, pc := .sendSlot (executeWithRecover c10task2), invoked := true }

/-- The crash state: the post-batch submission's result send hit the closed
`e.results` channel — an unrecovered runtime panic. -/
def c10crash : St :=
  { cap := 1, pool := 0, wg := 0, cancelled := false, waitCalled := true,
    closed := true, crashed := true,
    eths := [c10done, { task := c10task2, pc := .faulted, invoked := true }],
    wths := [], collected := [executeWithRecover c10task] }

/-- Claim C10: after one `ExecuteAll` batch completes, `Wait()`'s closer has
closed `e.results`; a subsequent `Execute` runs its task and then its result
send hits the closed channel — an unrecovered runtime fault in the spawned
goroutine (concrete trace reaching `crashed = true`).  Moreover the closure
is permanent and final: once `closed = true`, no step can ever publish
another `Result` (`collected` is frozen), so the executor serves at most one
`ExecuteAll` batch and accepts no submissions after it. -/
theorem execute_after_executeAll_faults :
    (Reach (executeAllStart 1 [c10task]) c10crash ∧ c10crash.crashed = true) ∧
    (∀ s s', s.closed = true → SStep s s' →
      s'.closed = true ∧ s'.collected = s.collected) := by
  constructor
  · constructor
    · refine Relation.ReflTransGen.head
        (SStep.lift (Step.acquire _ [] [] c10th0 rfl rfl (by decide))) ?_
      refine Relation.ReflTransGen.head
        (SStep.lift (Step.finishBody _ [] [] c10th1 rfl rfl)) ?_
      refine Relation.ReflTransGen.head
        (SStep.lift (Step.recvSlot _ [] [] c10th2 (executeWithRecover c10task) rfl rfl rfl)) ?_
      refine Relation.ReflTransGen.head
        (SStep.lift (Step.finishSlot _ [] [] c10th3 (executeWithRecover c10task) rfl rfl)) ?_
      refine Relation.ReflTransGen.head (SStep.lift (Step.closeChan _ rfl rfl rfl)) ?_
      refine Relation.ReflTransGen.head (SStep.spawnE _ c10task2) ?_
      refine Relation.ReflTransGen.head
        (SStep.lift (Step.acquire _ [c10done] [] c10bth0 rfl rfl (by decide))) ?_
      refine Relation.ReflTransGen.head
        (SStep.lift (Step.finishBody _ [c10done] [] c10bth1 rfl rfl)) ?_
      refine Relation.ReflTransGen.head
        (SStep.lift (Step.sendClosedSlot _ [c10done] [] c10bth2
          (executeWithRecover c10task2) rfl rfl rfl)) ?_
      exact Relation.ReflTransGen.refl
    · rfl
  · intro s s' hcl hstep
    cases hstep with
    | lift h2 =>
      cases h2 with
      | acquire l₁ l₂ t h hpc hcap => exact ⟨hcl, rfl⟩
      | abandon l₁ l₂ t h hpc hc => exact ⟨hcl, rfl⟩
      | finishBody l₁ l₂ t h hpc => exact ⟨hcl, rfl⟩
      | recvSlot l₁ l₂ t r h hpc hcl2 => rw [hcl] at hcl2; cases hcl2
      | recvCancel l₁ l₂ t h hpc hcl2 => rw [hcl] at hcl2; cases hcl2
      | finishSlot l₁ l₂ t r h hpc => exact ⟨hcl, rfl⟩
      | finishNC l₁ l₂ t h hpc => exact ⟨hcl, rfl⟩
      | sendClosedSlot l₁ l₂ t r h hpc hcl2 => exact ⟨hcl, rfl⟩
      | sendClosedCancel l₁ l₂ t h hpc hcl2 => exact ⟨hcl, rfl⟩
      | closeChan hw hwg hcl2 => rw [hcl] at hcl2; cases hcl2
      | cancelCtx => exact ⟨hcl, rfl⟩
      | wInvoke l₁ l₂ w h hpc => exact ⟨hcl, rfl⟩
      | wFinishBody l₁ l₂ w h hpc => exact ⟨hcl, rfl⟩
      | wTimerFire l₁ l₂ w h => exact ⟨hcl, rfl⟩
      | wSelectResult l₁ l₂ w r h hw hb => exact ⟨hcl, rfl⟩
      | wSelectTimeout l₁ l₂ w h hw hd => exact ⟨hcl, rfl⟩
    | spawnE o => exact ⟨hcl, rfl⟩
    | spawnW o d => exact ⟨hcl, rfl⟩

theorem execute_after_executeAll_faults_witness :
    ({ c10crash with cancelled := true } : St).closed = true ∧
    ({ c10crash with cancelled := true } : St).collected = c10crash.collected :=
  execute_after_executeAll_faults.2 c10crash { c10crash with cancelled := true } rfl
    (SStep.lift (Step.cancelCtx c10crash))

theorem getElem?_mid_self {α : Type} (l₁ l₂ : List α) (a : α) :
    (l₁ ++ a :: l₂)[l₁.length]? = some a := by
  rw [List.getElem?_append]
  simp

theorem getElem?_mid_other {α : Type} (l₁ l₂ : List α) (a b : α) (i : Nat)
    (hne : i ≠ l₁.length) :
    (l₁ ++ a :: l₂)[i]? = (l₁ ++ b :: l₂)[i]? := by
  rcases Nat.lt_or_ge i l₁.length with hlt | hge
  · rw [List.getElem?_append, List.getElem?_append]
    simp [hlt]
  · have h2 : i - l₁.length ≠ 0 := by omega
    obtain ⟨k, hk⟩ := Nat.exists_eq_succ_of_ne_zero h2
    rw [List.getElem?_append, List.getElem?_append]
    simp [Nat.not_lt.mpr hge, hk]

theorem lt_of_getElem?_eq_some {α : Type} {l : List α} {i : Nat} {a : α}
    (h : l[i]? = some a) : i < l.length :=
  (List.getElem?_eq_some.mp h).1

theorem getElem?_decomp {α : Type} {l : List α} {i : Nat} {a : α} (h : l[i]? = some a) :
    l = l.take i ++ a :: l.drop (i + 1) := by
  induction l generalizing i with
  | nil => simp at h
  | cons x l ih =>
    cases i with
    | zero => simp at h; simp [h]
    | succ n =>
      simp only [List.getElem?_cons_succ] at h
      simpa using ih h

/-- The `ExecuteWithTimeout` call record after its body finished and buffered
the panic guard's output in the private `resultChan`. -/
def WTh.finishedBody (w : WTh) : WTh :=
  { w with wpc := .sent, buf := some (executeWithRecover w.task) }

/-- How one open-system step can affect the `ExecuteWithTimeout` call tracked
at position `i`: unchanged, body invoked, body finished (buffering the
guard's output), timer fired, result consumed by the caller, or the timeout
branch taken. -/
theorem wths_track {s s' : St} (hstep : SStep s s') (i : Nat) (w : WTh)
    (hw : s.wths[i]? = some w) :
    s'.wths[i]? = some w ∨
    (w.wpc = .idle ∧
      s'.wths[i]? = some { w with wpc := .running, ctxArg := some .root }) ∨
    (w.wpc = .running ∧
      s'.wths[i]? = some { w with wpc := .sent, buf := some (executeWithRecover w.task) }) ∨
    (s'.wths[i]? = some { w with timer := true }) ∨
    (∃ r, w.waiter = .selecting ∧ w.buf = some r ∧
      s'.wths[i]? = some { w with waiter := .retRes r, buf := none }) ∨
    (w.waiter = .selecting ∧
      s'.wths[i]? = some { w with waiter := .retTimeout (timeoutResult w.dur) }) := by
  cases hstep with
  | spawnE o => exact Or.inl hw
  | spawnW o d =>
    left
    have hlt := lt_of_getElem?_eq_some hw
    rw [List.getElem?_append]
    simp [hlt, hw]
  | lift h2 =>
    cases h2 with
    | acquire l₁ l₂ t h hpc hcap => exact Or.inl hw
    | abandon l₁ l₂ t h hpc hc => exact Or.inl hw
    | finishBody l₁ l₂ t h hpc => exact Or.inl hw
    | recvSlot l₁ l₂ t r h hpc hcl => exact Or.inl hw
    | recvCancel l₁ l₂ t h hpc hcl => exact Or.inl hw
    | finishSlot l₁ l₂ t r h hpc => exact Or.inl hw
    | finishNC l₁ l₂ t h hpc => exact Or.inl hw
    | sendClosedSlot l₁ l₂ t r h hpc hcl => exact Or.inl hw
    | sendClosedCancel l₁ l₂ t h hpc hcl => exact Or.inl hw
    | closeChan hw2 hwg hcl => exact Or.inl hw
    | cancelCtx => exact Or.inl hw
    | wInvoke l₁ l₂ w₀ h hpc =>
      rw [h] at hw
      by_cases hi : i = l₁.length
      · subst hi
        rw [getElem?_mid_self] at hw
        have hww : w₀ = w := by injection hw
        subst hww
        exact Or.inr (Or.inl ⟨hpc, getElem?_mid_self l₁ l₂ _⟩)
      · left
        rw [getElem?_mid_other l₁ l₂ _ w₀ i hi]
        exact hw
    | wFinishBody l₁ l₂ w₀ h hpc =>
      rw [h] at hw
      by_cases hi : i = l₁.length
      · subst hi
        rw [getElem?_mid_self] at hw
        have hww : w₀ = w := by injection hw
        subst hww
        exact Or.inr (Or.inr (Or.inl ⟨hpc, getElem?_mid_self l₁ l₂ _⟩))
      · left
        rw [getElem?_mid_other l₁ l₂ _ w₀ i hi]
        exact hw
    | wTimerFire l₁ l₂ w₀ h =>
      rw [h] at hw
      by_cases hi : i = l₁.length
      · subst hi
        rw [getElem?_mid_self] at hw
        have hww : w₀ = w := by injection hw
        subst hww
        exact Or.inr (Or.inr (Or.inr (Or.inl (getElem?_mid_self l₁ l₂ _))))
      · left
        rw [getElem?_mid_other l₁ l₂ _ w₀ i hi]
        exact hw
    | wSelectResult l₁ l₂ w₀ r h hwa hb =>
      rw [h] at hw
      by_cases hi : i = l₁.length
      · subst hi
        rw [getElem?_mid_self] at hw
        have hww : w₀ = w := by injection hw
        subst hww
        exact Or.inr (Or.inr (Or.inr (Or.inr (Or.inl
          ⟨r, hwa, hb, getElem?_mid_self l₁ l₂ _⟩))))
      · left
        rw [getElem?_mid_other l₁ l₂ _ w₀ i hi]
        exact hw
    | wSelectTimeout l₁ l₂ w₀ h hwa hd =>
      rw [h] at hw
      by_cases hi : i = l₁.length
      · subst hi
        rw [getElem?_mid_self] at hw
        have hww : w₀ = w := by injection hw
        subst hww
        exact Or.inr (Or.inr (Or.inr (Or.inr (Or.inr
          ⟨hwa, getElem?_mid_self l₁ l₂ _⟩))))
      · left
        rw [getElem?_mid_other l₁ l₂ _ w₀ i hi]
        exact hw

/-- Once an `ExecuteWithTimeout` caller has returned through the timeout
branch, its returned value never changes: the eventual task result is
discarded, not delivered. -/
theorem retTimeout_frozen {s s' : St} (h : Reach s s') (i : Nat) (r : Result)
    (w : WTh) (hw : s.wths[i]? = some w) (hwa : w.waiter = .retTimeout r) :
    ∃ w', s'.wths[i]? = some w' ∧ w'.waiter = .retTimeout r := by
  induction h with
  | refl => exact ⟨w, hw, hwa⟩
  | tail hr hstep ih =>
    obtain ⟨w', h1, h2⟩ := ih
    rcases wths_track hstep i w' h1 with h3 | ⟨_, h3⟩ | ⟨_, h3⟩ | h3 |
      ⟨r', hsel, _, _⟩ | ⟨hsel, _⟩
    · exact ⟨w', h3, h2⟩
    · exact ⟨_, h3, by simpa using h2⟩
    · exact ⟨_, h3, by simpa using h2⟩
    · exact ⟨_, h3, by simpa using h2⟩
    · rw [h2] at hsel
      simp at hsel
    · rw [h2] at hsel
      simp at hsel

/-- Claim C5: when the wait duration elapses before the task's result is
available, `ExecuteWithTimeout(task, d)` returns a `Result` carrying the
timeout error; the task itself is not forcibly stopped and its eventual
result is discarded.  Formally, for any reachable state and any
`ExecuteWithTimeout` call in flight at position `i`:
(1) a timeout-branch return carries exactly `timeoutResult d`;
(2) if the scope has expired and the private buffer is still empty, no step
can hand the caller the task's own result — the caller either keeps
selecting or returns the timeout error;
(3) a still-running body remains free to finish afterwards (the body step
stays enabled — the task is not stopped);
(4) once the caller returned through the timeout branch, its returned value
stays that timeout error forever, so the task's eventual result is discarded. -/
theorem executeWithTimeout_timeout_race (c : Nat) (s : St) (h : Reach (St.init c) s)
    (i : Nat) (w : WTh) (hw : s.wths[i]? = some w) :
    (∀ r, w.waiter = .retTimeout r → r = timeoutResult w.dur) ∧
    (w.waiter = .selecting → w.buf = none → ∀ s', SStep s s' →
      s'.wths[i]?.map WTh.waiter = some WaiterPc.selecting ∨
      s'.wths[i]?.map WTh.waiter = some (WaiterPc.retTimeout (timeoutResult w.dur))) ∧
    (w.wpc = .running →
      SStep s { s with wths := s.wths.take i ++ w.finishedBody :: s.wths.drop (i + 1) }) ∧
    (∀ r s', w.waiter = .retTimeout r → Reach s s' →
      s'.wths[i]?.map WTh.waiter = some (WaiterPc.retTimeout r)) := by
  have hInv := inv_reach (inv_init c) h
  obtain ⟨hlt, hgl⟩ := List.getElem?_eq_some.mp hw
  have hmem : w ∈ s.wths := hgl ▸ List.getElem_mem hlt
  refine ⟨(hInv.wok w hmem).2.2.2.2, ?_, ?_, ?_⟩
  · intro hsel hbuf s' hstep
    rcases wths_track hstep i w hw with h3 | ⟨_, h3⟩ | ⟨_, h3⟩ | h3 |
      ⟨r', _, hb, _⟩ | ⟨_, h3⟩
    · left
      rw [h3]
      simpa using hsel
    · left
      rw [h3]
      simpa using hsel
    · left
      rw [h3]
      simpa using hsel
    · left
      rw [h3]
      simpa using hsel
    · rw [hbuf] at hb
      cases hb
    · right
      rw [h3]
      simp
  · intro hwpc
    exact SStep.lift (Step.wFinishBody s _ _ w (getElem?_decomp hw) hwpc)
  · intro r s' hwa hreach
    obtain ⟨w', h1, h2⟩ := retTimeout_frozen hreach i r w hw hwa
    rw [h1]
    simp [h2]

/-- Concrete task and states for the C5 witness run:
`ExecuteWithTimeout(task, 7)` whose scope has expired while the body is still
running and nothing is buffered. -/
def c5task : Outcome := .ret (some "late") none

def c5w0 : WTh :=
  { task := c5task, dur := 7, ctxArg := none, wpc := .idle, buf := none,
    timer := false, waiter := .selecting }

def c5w1 : WTh :=
  { task := c5task, dur := 7, ctxArg := some .root, wpc := .running, buf := none,
    timer := false, waiter := .selecting }

def c5w2 : WTh :=
  { task := c5task, dur := 7, ctxArg := some .root, wpc := .running, buf := none,
    timer := true, waiter := .selecting }

def c5end : St := { St.init 1 with wths := [c5w2] }

theorem executeWithTimeout_timeout_race_witness :
    ({ c5end with wths := [{ c5w2 with waiter := .retTimeout (timeoutResult 7) }] } :
        St).wths[0]?.map WTh.waiter = some WaiterPc.selecting ∨
    ({ c5end with wths := [{ c5w2 with waiter := .retTimeout (timeoutResult 7) }] } :
        St).wths[0]?.map WTh.waiter = some (WaiterPc.retTimeout (timeoutResult 7)) := by
  have h1 : Reach (St.init 1) c5end := by
    refine Relation.ReflTransGen.head (SStep.spawnW (St.init 1) c5task 7) ?_
    refine Relation.ReflTransGen.head (SStep.lift (Step.wInvoke _ [] [] c5w0 rfl rfl)) ?_
    refine Relation.ReflTransGen.head (SStep.lift (Step.wTimerFire _ [] [] c5w1 rfl)) ?_
    exact Relation.ReflTransGen.refl
  have h2 := (executeWithTimeout_timeout_race 1 c5end h1 0 c5w2 rfl).2.1 rfl rfl
  exact h2 _ (SStep.lift (Step.wSelectTimeout c5end [] [] c5w2 rfl rfl (Or.inl rfl)))

end GoHutool
